import Mathlib

/-!
Verification development for the `comm_program` device-communication core
(`comm_program/device_client.py` and the polling worker of
`comm_program/gui/tab_test.py`).

Modelling conventions:
- Wire text is `List Char` (`Str`).  The transport uses ISO-8859-1, a
  bijection between bytes and the first 256 code points, so characters model
  bytes faithfully.
- A Python `dict` built by successive insertion is an insertion-ordered
  association list with unique keys (`Msg`); `dictInsert` updates an existing
  key in place and otherwise appends, exactly like a Python dict assignment.
- One call to `DeviceClient.receive_msg` consumes one receive event
  `Option Str`: `none` is a select-timeout (or socket error), `some data` a
  datagram.  A method that performs several receives consumes a prefix of a
  list of such events; an exhausted list behaves as a timeout, as the real
  socket would.
- A Python method that can raise an uncaught exception is modelled with
  `PyResult`; the carried string names the exception.
-/

/-- Character strings standing for ISO-8859-1 byte strings. -/
abbrev Str := List Char

/-- An insertion-ordered Python dict from field names to values. -/
abbrev Msg := List (Str × Str)

/-- Tail of `Str.split`: accumulates the current token (reversed) and starts a
new token after each separator, like Python's `str.split(sep)` for a one-char
separator. -/
def splitOnAux (sep : Char) : Str → Str → List Str
  | [], acc => [acc.reverse]
  | c :: cs, acc =>
    if c = sep then acc.reverse :: splitOnAux sep cs []
    else splitOnAux sep cs (c :: acc)

/-- Python `s.split(sep)` for a single-character separator: the split of the
empty string is `[""]`, and a trailing separator yields a trailing empty
token. -/
def splitOn (sep : Char) (s : Str) : List Str := splitOnAux sep s []

/-- Python `d.get(k)`: value of the first (unique) entry with key `k`. -/
def dictGet : Msg → Str → Option Str
  | [], _ => none
  | (k', v) :: rest, k => if k' = k then some v else dictGet rest k

/-- Python `d[k] = v` on a dict with unique keys: update the existing entry in
place, else append the new pair at the end (insertion order). -/
def dictInsert : Msg → Str → Str → Msg
  | [], k, v => [(k, v)]
  | (k', v') :: rest, k, v =>
    if k' = k then (k', v) :: rest else (k', v') :: dictInsert rest k v

/-- Python `m.split("=")[0]` and `m.split("=")[1]` of a token known to contain `=`
(so the split has at least two pieces and the defaults are never used). -/
def parseField (m : Str) : Str × Str :=
  ((splitOn '=' m).headD [], ((splitOn '=' m).drop 1).headD [])

def kTYPE : Str := "TYPE".toList
def kMODEL : Str := "MODEL".toList
def kSERIAL : Str := "SERIAL".toList
def kRESULT : Str := "RESULT".toList
def kMSG : Str := "MSG".toList
def kSTATE : Str := "STATE".toList
def kTIME : Str := "TIME".toList
def kMV : Str := "MV".toList
def kMA : Str := "MA".toList

def sID : Str := "ID".toList
def sTEST : Str := "TEST".toList
def sSTATUS : Str := "STATUS".toList
def sSTARTED : Str := "STARTED".toList
def sSTOPPED : Str := "STOPPED".toList
def sERROR1 : Str := "ERROR1".toList
def sERROR2 : Str := "ERROR2".toList
def sIDLE : Str := "IDLE".toList

def msgInvalid : Str := "Invalid response from server.".toList
def msgStartOk : Str := "Test successfully started.".toList
def msgStopOk : Str := "Test successfully stopped.".toList

def eKeyMODEL : Str := "KeyError: MODEL".toList
def eKeySERIAL : Str := "KeyError: SERIAL".toList
def eKeyMSG : Str := "KeyError: MSG".toList
def eKeyTIME : Str := "KeyError: TIME".toList
def eKeyMV : Str := "KeyError: MV".toList
def eKeyMA : Str := "KeyError: MA".toList

/-- Model of `DeviceClient.receive_msg`.  A timeout or socket error returns the empty
dict.  A datagram is decoded by splitting on `;`; fewer than two tokens is the
invalid-message case (empty dict); otherwise every token containing `=` becomes
a `KEY=VALUE` field (dict-comprehension insertion order) and finally
`parsed_msg["TYPE"] = msg[0]` binds `TYPE` to the whole first token. -/
def receive_msg (ev : Option Str) : Msg :=
  match ev with
  | none => []
  | some data =>
    let tokens := splitOn ';' data
    if tokens.length < 2 then []
    else
      let parsed := tokens.foldl
        (fun d m => if '=' ∈ m then dictInsert d (parseField m).1 (parseField m).2 else d) []
      dictInsert parsed kTYPE (tokens.headD [])

example : receive_msg (some "TEST;RESULT=STOPPED;".toList) =
    [(kRESULT, sSTOPPED), (kTYPE, sTEST)] := by decide
example : receive_msg (some "STATUS;TYPE=FAKE;".toList) =
    [(kTYPE, sSTATUS)] := by decide
example : receive_msg (some "garbage".toList) = [] := by decide
example : receive_msg none = [] := by decide

/-- The mutable fields of a `DeviceClient` object: the identity learned at
discovery (`self.device_model`, `self.device_serial_num`) and whether the UDP
socket is still open (`__init__` opens it, `disconnect` closes it). -/
structure ClientState where
  device_model : Option Str
  device_serial_num : Option Str
  sock_open : Bool
deriving DecidableEq, Repr

/-- A fresh `DeviceClient(ip, port)`: no identity, socket open. -/
def initClient : ClientState := ⟨none, none, true⟩

/-- Outcome of a Python call that either returns a value or lets an exception
escape (the string names the exception). -/
inductive PyResult (α : Type) where
  | ok (a : α)
  | exn (err : Str)
deriving DecidableEq, Repr

/-- Return value of `start_test` / `stop_test`: the `(code, message)` tuple,
or an escaped exception. -/
inductive CallResult where
  | ret (code : Int) (msg : Str)
  | exn (err : Str)
deriving DecidableEq, Repr

/-- Model of `DeviceClient.disconnect`: clears the identity and closes the socket. -/
def disconnect (_s : ClientState) : ClientState := ⟨none, none, false⟩

/-- Model of `DeviceClient.discover`.  Sends `ID;` (fire-and-forget) and receives one
reply.  On a truthy reply with `TYPE == "ID"` it assigns
`self.device_model = resp["MODEL"]` and then
`self.device_serial_num = resp["SERIAL"]` — raw indexing, so a missing key
raises `KeyError`, after the model field may already have been assigned.  Any
other reply returns `None` with the state untouched. -/
def discover (s : ClientState) (ev : Option Str) :
    PyResult (Option (Str × Str)) × ClientState :=
  let resp := receive_msg ev
  if resp ≠ [] ∧ dictGet resp kTYPE = some sID then
    match dictGet resp kMODEL with
    | none => (.exn eKeyMODEL, s)
    | some m =>
      match dictGet resp kSERIAL with
      | none => (.exn eKeySERIAL, { s with device_model := some m })
      | some sn =>
        (.ok (some (m, sn)),
         { s with device_model := some m, device_serial_num := some sn })
  else (.ok none, s)

/-- Model of `DeviceClient.start_test`.  Sends the start frame (fire-and-forget, no
state effect) and interprets one reply; `resp["MSG"]` on the `ERROR1` path is
raw indexing.  The session state is threaded through unchanged because the
method never assigns any attribute. -/
def start_test (s : ClientState) (ev : Option Str) : CallResult × ClientState :=
  let resp := receive_msg ev
  if resp ≠ [] ∧ dictGet resp kTYPE = some sTEST then
    if dictGet resp kRESULT = some sSTARTED then (.ret 0 msgStartOk, s)
    else if dictGet resp kRESULT = some sERROR1 then
      match dictGet resp kMSG with
      | some m => (.ret 1 m, s)
      | none => (.exn eKeyMSG, s)
    else (.ret (-1) msgInvalid, s)
  else (.ret (-1) msgInvalid, s)

/-- One further `receive_msg` call inside a loop body: consumes the head event
(an exhausted stream times out). -/
def recvOne (evs : List (Option Str)) : Msg :=
  receive_msg (evs.headD none)

/-- Model of `DeviceClient.stop_test`.  Sends `TEST;CMD=STOP;` and loops over receives:
a truthy `TEST` reply with `RESULT == "STOPPED"` receives once more and
succeeds on any truthy `STATUS` reply; `RESULT == "ERROR2"` returns
`(2, resp["MSG"])` (raw indexing); a truthy `STATUS` reply with
`STATE == "IDLE"` receives once more and succeeds on a truthy
`TEST`/`STOPPED` reply; a truthy `STATUS` reply of any other state
`continue`s the loop; every other case returns `(-1, ...)`.  The third
component counts the `receive_msg` calls performed. -/
def stop_test (s : ClientState) : List (Option Str) → CallResult × ClientState × Nat
  | [] => (.ret (-1) msgInvalid, s, 1)
  | e :: rest =>
    let resp := receive_msg e
    if resp ≠ [] ∧ dictGet resp kTYPE = some sTEST then
      if dictGet resp kRESULT = some sSTOPPED then
        let idle := recvOne rest
        if idle ≠ [] ∧ dictGet idle kTYPE = some sSTATUS then
          (.ret 0 msgStopOk, s, 2)
        else (.ret (-1) msgInvalid, s, 2)
      else if dictGet resp kRESULT = some sERROR2 then
        match dictGet resp kMSG with
        | some m => (.ret 2 m, s, 1)
        | none => (.exn eKeyMSG, s, 1)
      else (.ret (-1) msgInvalid, s, 1)
    else if resp ≠ [] ∧ dictGet resp kTYPE = some sSTATUS then
      if dictGet resp kSTATE = some sIDLE then
        let stopm := recvOne rest
        if stopm ≠ [] ∧ dictGet stopm kTYPE = some sTEST ∧
            dictGet stopm kRESULT = some sSTOPPED then
          (.ret 0 msgStopOk, s, 2)
        else (.ret (-1) msgInvalid, s, 2)
      else
        let r := stop_test s rest
        (r.1, r.2.1, r.2.2 + 1)
    else (.ret (-1) msgInvalid, s, 1)

/-- The three dict shapes `DeviceClient.get_status` can return. -/
inductive StatusResult where
  /-- The dict `{"state": "IDLE", "msg": "No test running."}`. -/
  | idleRes
  /-- The dict `{"state": "TESTING", "msg": (msg["TIME"], msg["MV"], msg["MA"])}`. -/
  | testing (t mv ma : Str)
  /-- The value `None`. -/
  | noneRes
deriving DecidableEq, Repr

/-- Model of `DeviceClient.get_status`.  One receive; a truthy `STATUS` reply with
`STATE == "IDLE"` reports the test ended, any other truthy `STATUS` reply
builds the `(TIME, MV, MA)` sample by raw indexing (left to right, so the
first missing key raises `KeyError`); everything else returns `None`. -/
def get_status (ev : Option Str) : PyResult StatusResult :=
  let m := receive_msg ev
  if m ≠ [] ∧ dictGet m kTYPE = some sSTATUS then
    if dictGet m kSTATE = some sIDLE then .ok .idleRes
    else
      match dictGet m kTIME with
      | none => .exn eKeyTIME
      | some t =>
        match dictGet m kMV with
        | none => .exn eKeyMV
        | some mv =>
          match dictGet m kMA with
          | none => .exn eKeyMA
          | some ma => .ok (.testing t mv ma)
  else .ok .noneRes

example : stop_test initClient
    [some "TEST;RESULT=STOPPED;".toList, some "STATUS;STATE=IDLE;".toList] =
    (.ret 0 msgStopOk, initClient, 2) := by decide
example : stop_test initClient
    [some "STATUS;STATE=IDLE;".toList, some "TEST;RESULT=STOPPED;".toList] =
    (.ret 0 msgStopOk, initClient, 2) := by decide
example : stop_test initClient
    [some "STATUS;STATE=RUNNING;TIME=1;MV=2;MA=3;".toList,
     some "STATUS;STATE=IDLE;".toList, some "TEST;RESULT=STOPPED;".toList] =
    (.ret 0 msgStopOk, initClient, 3) := by decide
example : stop_test initClient
    [some "TEST;RESULT=STOPPED;".toList,
     some "STATUS;STATE=RUNNING;TIME=1;MV=2;MA=3;".toList] =
    (.ret 0 msgStopOk, initClient, 2) := by decide
example : get_status (some "STATUS;STATE=RUNNING;".toList) = .exn eKeyTIME := by decide
example : discover initClient (some "ID;MODEL=X;".toList) =
    (.exn eKeySERIAL, ⟨some "X".toList, none, true⟩) := by decide

/-- The observable state of the polling worker (`Worker` of `tab_test.py`)
together with its `SelectedDevice`'s client: the `QTimer` activity flag,
`consecutive_timeout_responses`, and counters of the externally visible
effects — forced `DeviceClient.stop_test` calls issued through
`stop(force=True)`, `device_not_responding` prompts, and `update_plots`
calls. -/
structure DriverState where
  client : ClientState
  connected : Bool
  timerActive : Bool
  counter : Nat
  forcedStops : Nat
  notifies : Nat
  samples : Nat
deriving DecidableEq, Repr

/-- Model of `Worker.stop(force)`: stops the timer; when `force` it runs
`SelectedDevice.stop_device_test`, which calls `DeviceClient.stop_test` on the
same receive stream and, when that returns code `-1`, runs
`device_not_responding` (warn the operator, then `disconnect_device`, which
clears the client and drops the connection).  An exception escaping
`stop_test` propagates. -/
def worker_stop (d : DriverState) (force : Bool) (evs : List (Option Str)) :
    PyResult DriverState × List (Option Str) :=
  let d1 := { d with timerActive := false }
  if force then
    let r := stop_test d1.client evs
    let evs' := evs.drop r.2.2
    let d2 := { d1 with client := r.2.1, forcedStops := d1.forcedStops + 1 }
    match r.1 with
    | .ret code _ =>
      if code = -1 then
        (.ok { d2 with notifies := d2.notifies + 1,
                       client := disconnect d2.client, connected := false }, evs')
      else (.ok d2, evs')
    | .exn err => (.exn err, evs')
  else (.ok d1, evs)

/-- Model of `Worker.execute`, one timer tick: one `get_status` call (consuming one
receive event).  On `None` it increments the consecutive-timeout counter and,
once that counter exceeds 1, runs `stop(force=True)`; on a status dict it
resets the counter and either forwards the sample (`"TESTING"`) or runs
`stop()` (`"IDLE"`).  `get_status` only ever returns those two dict shapes, so
the `ValueError` branch of the Python code is unreachable. -/
def worker_execute (d : DriverState) (evs : List (Option Str)) :
    PyResult DriverState × List (Option Str) :=
  let evs1 := evs.drop 1
  match get_status (evs.headD none) with
  | .exn err => (.exn err, evs1)
  | .ok .noneRes =>
    let d1 := { d with counter := d.counter + 1 }
    if d1.counter > 1 then worker_stop d1 true evs1
    else (.ok d1, evs1)
  | .ok .idleRes => worker_stop { d with counter := 0 } false evs1
  | .ok (.testing _ _ _) =>
    (.ok { d with counter := 0, samples := d.samples + 1 }, evs1)

/-- Runs up to `n` timer ticks: a tick fires only while the `QTimer` is
active (stopping the timer cancels all later ticks); an escaped exception
kills the run. -/
def run_ticks : DriverState → List (Option Str) → Nat → PyResult DriverState × List (Option Str)
  | d, evs, 0 => (.ok d, evs)
  | d, evs, n + 1 =>
    if d.timerActive then
      match worker_execute d evs with
      | (.ok d', evs') => run_ticks d' evs' n
      | (.exn err, evs') => (.exn err, evs')
    else (.ok d, evs)

/-- A worker freshly started by `TestTab.run_test` on a connected client. -/
def initDriver : DriverState :=
  { client := initClient, connected := true, timerActive := true,
    counter := 0, forcedStops := 0, notifies := 0, samples := 0 }

example : run_ticks initDriver [none, none] 2 =
    (.ok { client := ⟨none, none, false⟩, connected := false, timerActive := false,
           counter := 2, forcedStops := 1, notifies := 1, samples := 0 }, []) := by decide
example : run_ticks initDriver [none] 1 =
    (.ok { initDriver with counter := 1 }, []) := by decide

/-- Encodes the `K1=V1;K2=V2;…;` tail of an outgoing frame. -/
def encodeFields : List (Str × Str) → Str
  | [] => []
  | (k, v) :: rest => k ++ '=' :: v ++ ';' :: encodeFields rest

/-- An outgoing frame `TYPE;K1=V1;K2=V2;…;` in caller insertion order.  This
is the frame shape every `send_msg` call site of `device_client.py` builds
(`"ID;"`, `f"TEST;CMD=START;DURATION={duration};RATE={rate};"`,
`"TEST;CMD=STOP;"`), abstracted over the type and field list. -/
def encode (t : Str) (fields : List (Str × Str)) : Str :=
  t ++ ';' :: encodeFields fields

example : encode sTEST [("CMD".toList, "STOP".toList)] = "TEST;CMD=STOP;".toList := by decide
example : encode sID [] = "ID;".toList := by decide

theorem dictGet_ne_nil {d : Msg} {k v : Str} (h : dictGet d k = some v) : d ≠ [] := by
  intro hnil; subst hnil; simp [dictGet] at h

theorem dictGet_dictInsert_self (d : Msg) (k v : Str) :
    dictGet (dictInsert d k v) k = some v := by
  induction d with
  | nil => simp [dictInsert, dictGet]
  | cons p rest ih =>
    by_cases h : p.1 = k
    · simp [dictInsert, dictGet, h]
    · simp [dictInsert, dictGet, h, ih]

theorem dictInsert_ne_nil (d : Msg) (k v : Str) : dictInsert d k v ≠ [] := by
  cases d with
  | nil => simp [dictInsert]
  | cons p rest =>
    by_cases h : p.1 = k <;> simp [dictInsert, h]

theorem dictInsert_of_not_mem {d : Msg} {k : Str} (v : Str)
    (h : k ∉ d.map Prod.fst) : dictInsert d k v = d ++ [(k, v)] := by
  induction d with
  | nil => simp [dictInsert]
  | cons p rest ih =>
    simp only [List.map_cons, List.mem_cons] at h
    push_neg at h
    have hne : ¬ p.1 = k := h.1.symm
    simp [dictInsert, hne, ih h.2]

theorem splitOnAux_of_not_mem {sep : Char} {a : Str} (acc : Str) (h : sep ∉ a) :
    splitOnAux sep a acc = [acc.reverse ++ a] := by
  induction a generalizing acc with
  | nil => simp [splitOnAux]
  | cons c cs ih =>
    simp only [List.mem_cons] at h
    push_neg at h
    have hne : ¬ c = sep := h.1.symm
    simp [splitOnAux, hne, ih _ h.2]

theorem splitOnAux_append {sep : Char} {a : Str} (r : Str) (acc : Str) (h : sep ∉ a) :
    splitOnAux sep (a ++ sep :: r) acc = (acc.reverse ++ a) :: splitOnAux sep r [] := by
  induction a generalizing acc with
  | nil => simp [splitOnAux]
  | cons c cs ih =>
    simp only [List.mem_cons] at h
    push_neg at h
    have hne : ¬ c = sep := h.1.symm
    simp [splitOnAux, hne, ih _ h.2]

theorem splitOn_encodeFields (fs : List (Str × Str))
    (hf : ∀ kv ∈ fs, ';' ∉ kv.1 ∧ ';' ∉ kv.2) :
    splitOnAux ';' (encodeFields fs) [] =
      (fs.map fun kv => kv.1 ++ '=' :: kv.2) ++ [[]] := by
  induction fs with
  | nil => simp [encodeFields, splitOnAux]
  | cons kv rest ih =>
    obtain ⟨k, v⟩ := kv
    have h1 := hf (k, v) (by simp)
    have hmem : ';' ∉ k ++ '=' :: v := by
      simp only [List.mem_append, List.mem_cons]
      push_neg
      exact ⟨h1.1, by decide, h1.2⟩
    have hshape : encodeFields ((k, v) :: rest) =
        (k ++ '=' :: v) ++ ';' :: encodeFields rest := by
      simp [encodeFields]
    rw [hshape, splitOnAux_append _ _ hmem,
      ih (fun kv hkv => hf kv (List.mem_cons_of_mem _ hkv))]
    simp

theorem splitOn_encode (t : Str) (fs : List (Str × Str)) (ht : ';' ∉ t)
    (hf : ∀ kv ∈ fs, ';' ∉ kv.1 ∧ ';' ∉ kv.2) :
    splitOn ';' (encode t fs) =
      t :: ((fs.map fun kv => kv.1 ++ '=' :: kv.2) ++ [[]]) := by
  unfold splitOn encode
  rw [splitOnAux_append _ _ ht, splitOn_encodeFields fs hf]
  simp

theorem parseField_encode (k v : Str) (hk : '=' ∉ k) (hv : '=' ∉ v) :
    parseField (k ++ '=' :: v) = (k, v) := by
  unfold parseField splitOn
  rw [splitOnAux_append _ _ hk, splitOnAux_of_not_mem _ hv]
  simp

theorem foldl_parse_tokens (fs : List (Str × Str)) (d : Msg)
    (hf : ∀ kv ∈ fs, '=' ∉ kv.1 ∧ '=' ∉ kv.2)
    (hfresh : ∀ kv ∈ fs, kv.1 ∉ d.map Prod.fst)
    (hnd : (fs.map Prod.fst).Nodup) :
    (fs.map fun kv => kv.1 ++ '=' :: kv.2).foldl
      (fun d m => if '=' ∈ m then dictInsert d (parseField m).1 (parseField m).2 else d) d
      = d ++ fs := by
  induction fs generalizing d with
  | nil => simp
  | cons kv rest ih =>
    obtain ⟨k, v⟩ := kv
    have hkv := hf (k, v) (by simp)
    have hin : '=' ∈ k ++ '=' :: v := by simp
    simp only [List.map_cons, List.foldl_cons, if_pos hin,
      parseField_encode k v hkv.1 hkv.2]
    rw [dictInsert_of_not_mem v (hfresh (k, v) (by simp))]
    simp only [List.map_cons, List.nodup_cons] at hnd
    have hfresh' : ∀ kv' ∈ rest, kv'.1 ∉ (d ++ [(k, v)]).map Prod.fst := by
      intro kv' hkv'
      simp only [List.map_append, List.mem_append, List.map_cons, List.map_nil,
        List.mem_singleton]
      push_neg
      refine ⟨hfresh kv' (List.mem_cons_of_mem _ hkv'), ?_⟩
      intro heq
      exact hnd.1 (heq ▸ List.mem_map_of_mem Prod.fst hkv')
    rw [ih (d ++ [(k, v)]) (fun kv' h => hf kv' (List.mem_cons_of_mem _ h)) hfresh' hnd.2]
    simp

/-- C8: codec round-trip.  For every frame type without `;` or `=` and every
field mapping whose keys and values contain neither `;` nor `=`, whose keys
are distinct and none of which is the reserved key `TYPE`, decoding the
encoded frame `TYPE;K1=V1;K2=V2;…;` reproduces the fields exactly in
insertion order and binds `TYPE` to the frame type. -/
theorem codec_roundtrip (t : Str) (fs : List (Str × Str))
    (ht : ';' ∉ t ∧ '=' ∉ t)
    (hf : ∀ kv ∈ fs,
      (';' ∉ kv.1 ∧ '=' ∉ kv.1) ∧ (';' ∉ kv.2 ∧ '=' ∉ kv.2) ∧ kv.1 ≠ kTYPE)
    (hnd : (fs.map Prod.fst).Nodup) :
    receive_msg (some (encode t fs)) = fs ++ [(kTYPE, t)] ∧
    dictGet (receive_msg (some (encode t fs))) kTYPE = some t := by
  have htok : splitOn ';' (encode t fs) =
      t :: ((fs.map fun kv => kv.1 ++ '=' :: kv.2) ++ [[]]) :=
    splitOn_encode t fs ht.1 (fun kv h => ⟨(hf kv h).1.1, (hf kv h).2.1.1⟩)
  have hKT : kTYPE ∉ fs.map Prod.fst := by
    intro hmem
    obtain ⟨kv, hkv, heq⟩ := List.mem_map.mp hmem
    exact (hf kv hkv).2.2 heq
  have hrec : receive_msg (some (encode t fs)) = dictInsert fs kTYPE t := by
    simp only [receive_msg, htok]
    have hlen : ¬ (t :: ((fs.map fun kv => kv.1 ++ '=' :: kv.2) ++ [[]])).length < 2 := by
      simp
    rw [if_neg hlen]
    simp only [List.foldl_cons, List.foldl_append, if_neg ht.2, List.headD_cons]
    rw [foldl_parse_tokens fs []
      (fun kv h => ⟨(hf kv h).1.2, (hf kv h).2.1.2⟩) (by simp) hnd]
    simp
  refine ⟨?_, ?_⟩
  · rw [hrec, dictInsert_of_not_mem t hKT]
  · rw [hrec, dictGet_dictInsert_self]

/-- C8 witness: the round-trip applied to the concrete frame
`STATUS;STATE=RUNNING;TIME=17;MV=5;MA=2;`. -/
theorem codec_roundtrip_witness :
    ((';' ∉ sSTATUS ∧ '=' ∉ sSTATUS) ∧
     (∀ kv ∈ [(kSTATE, "RUNNING".toList), (kTIME, "17".toList),
              (kMV, "5".toList), (kMA, "2".toList)],
       (';' ∉ kv.1 ∧ '=' ∉ kv.1) ∧ (';' ∉ kv.2 ∧ '=' ∉ kv.2) ∧ kv.1 ≠ kTYPE) ∧
     ([(kSTATE, "RUNNING".toList), (kTIME, "17".toList),
       (kMV, "5".toList), (kMA, "2".toList)].map Prod.fst).Nodup) ∧
    (receive_msg (some (encode sSTATUS
        [(kSTATE, "RUNNING".toList), (kTIME, "17".toList),
         (kMV, "5".toList), (kMA, "2".toList)])) =
      [(kSTATE, "RUNNING".toList), (kTIME, "17".toList),
       (kMV, "5".toList), (kMA, "2".toList)] ++ [(kTYPE, sSTATUS)] ∧
     dictGet (receive_msg (some (encode sSTATUS
        [(kSTATE, "RUNNING".toList), (kTIME, "17".toList),
         (kMV, "5".toList), (kMA, "2".toList)]))) kTYPE = some sSTATUS) :=
  ⟨⟨by decide, by decide, by decide⟩,
   codec_roundtrip sSTATUS
     [(kSTATE, "RUNNING".toList), (kTIME, "17".toList),
      (kMV, "5".toList), (kMA, "2".toList)]
     (by decide) (by decide) (by decide)⟩

/-- C10: every decoded message binds `TYPE` to the entire first
`;`-separated token of the datagram.  The decode succeeds (nonempty dict)
whenever the split has at least two tokens, and the final
`parsed_msg["TYPE"] = msg[0]` assignment makes the first token the value of
`TYPE` no matter what `KEY=VALUE` fields — including a literal `TYPE=...`
body field — the datagram carried. -/
theorem receive_msg_type_is_first_token (data : Str)
    (h : 2 ≤ (splitOn ';' data).length) :
    receive_msg (some data) ≠ [] ∧
    dictGet (receive_msg (some data)) kTYPE = some ((splitOn ';' data).headD []) := by
  have hlen : ¬ (splitOn ';' data).length < 2 := by omega
  simp only [receive_msg, if_neg hlen]
  exact ⟨dictInsert_ne_nil _ _ _, dictGet_dictInsert_self _ _ _⟩

/-- C10 witness: the spoofing datagram `STATUS;TYPE=TEST;` decodes with
`TYPE` bound to `STATUS`, the first token, not to the body field's `TEST`. -/
theorem receive_msg_type_is_first_token_witness :
    2 ≤ (splitOn ';' "STATUS;TYPE=TEST;".toList).length ∧
    (receive_msg (some "STATUS;TYPE=TEST;".toList) ≠ [] ∧
     dictGet (receive_msg (some "STATUS;TYPE=TEST;".toList)) kTYPE =
       some ((splitOn ';' "STATUS;TYPE=TEST;".toList).headD [])) :=
  ⟨by decide, receive_msg_type_is_first_token "STATUS;TYPE=TEST;".toList (by decide)⟩

/-- C7: a datagram lacking a `;`-delimited second clause — its split on `;`
has fewer than two tokens — decodes to the empty dict, never to a
partially-filled field mapping. -/
theorem receive_msg_short_is_empty (data : Str)
    (h : (splitOn ';' data).length < 2) :
    receive_msg (some data) = [] := by
  simp only [receive_msg, if_pos h]

/-- C7 witness: a datagram with no `;` at all decodes to the empty dict even
though it contains a well-formed `KEY=VALUE` clause. -/
theorem receive_msg_short_is_empty_witness :
    (splitOn ';' "RESULT=STOPPED".toList).length < 2 ∧
    receive_msg (some "RESULT=STOPPED".toList) = [] :=
  ⟨by decide, receive_msg_short_is_empty "RESULT=STOPPED".toList (by decide)⟩

/-- The device's stop confirmation `TEST;RESULT=STOPPED;`. -/
def evStopped : Option Str := some "TEST;RESULT=STOPPED;".toList

/-- The device's idle confirmation `STATUS;STATE=IDLE;`. -/
def evIdle : Option Str := some "STATUS;STATE=IDLE;".toList

/-- An unrelated running-status push `STATUS;STATE=RUNNING;...;`. -/
def evRunning : Option Str := some "STATUS;STATE=RUNNING;TIME=0;MV=0;MA=0;".toList

/-- The event decodes to a `TEST` message with `RESULT=STOPPED`. -/
abbrev IsStoppedEvent (ev : Option Str) : Prop :=
  dictGet (receive_msg ev) kTYPE = some sTEST ∧
  dictGet (receive_msg ev) kRESULT = some sSTOPPED

/-- The event decodes to a `STATUS` message (of any state). -/
abbrev IsStatusEvent (ev : Option Str) : Prop :=
  dictGet (receive_msg ev) kTYPE = some sSTATUS

/-- The event decodes to a `STATUS` message with `STATE=IDLE`. -/
abbrev IsIdleStatusEvent (ev : Option Str) : Prop :=
  dictGet (receive_msg ev) kTYPE = some sSTATUS ∧
  dictGet (receive_msg ev) kSTATE = some sIDLE

/-- C1: the stop confirmations are accepted in both orders.  Feeding
`STOPPED` then `IDLE`, or `IDLE` then `STOPPED`, yields the success result
`(0, "Test successfully stopped.")` after two receives, and the final session
state is the same (unchanged) in both runs. -/
theorem stop_test_reorder_both_orders (s : ClientState) :
    stop_test s [evStopped, evIdle] = (.ret 0 msgStopOk, s, 2) ∧
    stop_test s [evIdle, evStopped] = (.ret 0 msgStopOk, s, 2) :=
  ⟨rfl, rfl⟩

/-- A non-IDLE `STATUS` reply at the head of the stream takes the `continue`
branch: the call behaves as on the remaining stream, with one more receive. -/
theorem stop_test_cons_skip (s : ClientState) (e : Option Str)
    (evs : List (Option Str))
    (h1 : dictGet (receive_msg e) kTYPE = some sSTATUS)
    (h2 : dictGet (receive_msg e) kSTATE ≠ some sIDLE) :
    stop_test s (e :: evs) =
      ((stop_test s evs).1, (stop_test s evs).2.1, (stop_test s evs).2.2 + 1) := by
  have hne : receive_msg e ≠ [] := dictGet_ne_nil h1
  have hnotTest : ¬ (receive_msg e ≠ [] ∧ dictGet (receive_msg e) kTYPE = some sTEST) := by
    rintro ⟨-, hT⟩
    exact absurd (Option.some.inj (h1.symm.trans hT)) (by decide)
  simp only [stop_test]
  rw [if_neg hnotTest, if_pos ⟨hne, h1⟩, if_neg h2]

/-- On a stream of `n` running-status pushes the loop performs `n + 1`
receives before the final timeout ends it. -/
theorem stop_test_count_replicate (s : ClientState) (n : Nat) :
    (stop_test s (List.replicate n evRunning)).2.2 = n + 1 := by
  induction n with
  | zero => rfl
  | succ n ih =>
    rw [List.replicate_succ, stop_test_cons_skip s evRunning _ (by decide) (by decide)]
    simp [ih]

/-- C3 counterexample: the receive loop of `stop_test` is not capped.  For
every candidate cap there is a stream of non-IDLE `STATUS` messages on which
the loop performs more receive iterations, so no bound on the iteration count
exists. -/
theorem stop_test_no_iteration_cap :
    ¬ ∃ cap : Nat, ∀ evs : List (Option Str),
        (stop_test initClient evs).2.2 ≤ cap := by
  rintro ⟨cap, h⟩
  have hc := h (List.replicate (cap + 1) evRunning)
  rw [stop_test_count_replicate] at hc
  omega

/-- C3 amended: the loop has no constant iteration cap (see the
counterexample); what does hold is that every finite reply stream is consumed
to termination — each iteration consumes a stream event, so the number of
receive calls is at most the stream length plus the one final timed-out
receive.  Termination comes from stream exhaustion (timeout), not from any
iteration cap. -/
theorem stop_test_recv_count_le (s : ClientState) (evs : List (Option Str)) :
    (stop_test s evs).2.2 ≤ evs.length + 1 := by
  induction evs with
  | nil => simp [stop_test]
  | cons e rest ih =>
    simp only [stop_test, List.length_cons]
    repeat' split
    all_goals simp_all

/-- A success of `stop_test` always observed a `TEST;RESULT=STOPPED` reply
and a `STATUS` reply in the stream — but the `STATUS` one need not carry
`STATE=IDLE` (the STOPPED-first branch checks only the type of the second
confirmation). -/
theorem stop_test_success_observed (s : ClientState) (evs : List (Option Str))
    (m : Str) (h : (stop_test s evs).1 = CallResult.ret 0 m) :
    (∃ e ∈ evs, IsStoppedEvent e) ∧ (∃ e ∈ evs, IsStatusEvent e) := by
  induction evs with
  | nil => simp [stop_test] at h
  | cons e rest ih =>
    by_cases h1 : receive_msg e ≠ [] ∧ dictGet (receive_msg e) kTYPE = some sTEST
    · by_cases h2 : dictGet (receive_msg e) kRESULT = some sSTOPPED
      · by_cases h3 : recvOne rest ≠ [] ∧ dictGet (recvOne rest) kTYPE = some sSTATUS
        · cases rest with
          | nil => exact absurd rfl h3.1
          | cons e2 r2 =>
            refine ⟨⟨e, by simp, h1.2, h2⟩, ⟨e2, by simp, ?_⟩⟩
            simpa [recvOne] using h3.2
        · simp only [stop_test, if_pos h1, if_pos h2, if_neg h3] at h
          simp at h
      · by_cases h4 : dictGet (receive_msg e) kRESULT = some sERROR2
        · cases hm : dictGet (receive_msg e) kMSG with
          | some mm =>
            simp only [stop_test, if_pos h1, if_neg h2, if_pos h4, hm] at h
            simp at h
          | none =>
            simp only [stop_test, if_pos h1, if_neg h2, if_pos h4, hm] at h
            simp at h
        · simp only [stop_test, if_pos h1, if_neg h2, if_neg h4] at h
          simp at h
    · by_cases h5 : receive_msg e ≠ [] ∧ dictGet (receive_msg e) kTYPE = some sSTATUS
      · by_cases h6 : dictGet (receive_msg e) kSTATE = some sIDLE
        · by_cases h7 : recvOne rest ≠ [] ∧ dictGet (recvOne rest) kTYPE = some sTEST ∧
              dictGet (recvOne rest) kRESULT = some sSTOPPED
          · cases rest with
            | nil => exact absurd rfl h7.1
            | cons e2 r2 =>
              refine ⟨⟨e2, by simp, ?_, ?_⟩, ⟨e, by simp, h5.2⟩⟩
              · simpa [recvOne] using h7.2.1
              · simpa [recvOne] using h7.2.2
          · simp only [stop_test, if_neg h1, if_pos h5, if_pos h6, if_neg h7] at h
            simp at h
        · simp only [stop_test, if_neg h1, if_pos h5, if_neg h6] at h
          obtain ⟨⟨e', he', hp'⟩, ⟨e'', he'', hp''⟩⟩ := ih h
          exact ⟨⟨e', List.mem_cons_of_mem _ he', hp'⟩,
                 ⟨e'', List.mem_cons_of_mem _ he'', hp''⟩⟩
      · simp only [stop_test, if_neg h1, if_neg h5] at h
        simp at h

/-- C2 counterexample: `stop_test` reports success on a stream that never
contains a `STATUS;STATE=IDLE` confirmation.  After `TEST;RESULT=STOPPED` the
code accepts any `STATUS` reply — here a `STATE=RUNNING` push — so the claim
that success requires observing both confirmations is false. -/
theorem stop_test_success_without_idle :
    (stop_test initClient [evStopped, evRunning]).1 = CallResult.ret 0 msgStopOk ∧
    ∀ e ∈ [evStopped, evRunning], ¬ IsIdleStatusEvent e := by decide

/-- C2 amended: non-IDLE `STATUS` messages ahead of the confirmations are
skipped without affecting the result, the final state, or anything but the
receive count; and a success implies the stream contained a
`TEST;RESULT=STOPPED` reply and a `STATUS` reply — but the `STATUS` reply's
state is not checked in the STOPPED-first order, so `STATE=IDLE` need not
have been observed. -/
theorem stop_test_skip_and_success_obs :
    (∀ (s : ClientState) (e : Option Str) (evs : List (Option Str)),
        dictGet (receive_msg e) kTYPE = some sSTATUS →
        dictGet (receive_msg e) kSTATE ≠ some sIDLE →
        stop_test s (e :: evs) =
          ((stop_test s evs).1, (stop_test s evs).2.1, (stop_test s evs).2.2 + 1)) ∧
    (∀ (s : ClientState) (evs : List (Option Str)) (m : Str),
        (stop_test s evs).1 = CallResult.ret 0 m →
        (∃ e ∈ evs, IsStoppedEvent e) ∧ (∃ e ∈ evs, IsStatusEvent e)) :=
  ⟨stop_test_cons_skip, stop_test_success_observed⟩

/-- C2 witness: the skip property applied to a running-status push ahead of
the reversed confirmations, and the success property applied to that
three-event stream. -/
theorem stop_test_skip_and_success_obs_witness :
    (stop_test initClient (evRunning :: [evIdle, evStopped]) =
      ((stop_test initClient [evIdle, evStopped]).1,
       (stop_test initClient [evIdle, evStopped]).2.1,
       (stop_test initClient [evIdle, evStopped]).2.2 + 1)) ∧
    ((∃ e ∈ [evRunning, evIdle, evStopped], IsStoppedEvent e) ∧
     (∃ e ∈ [evRunning, evIdle, evStopped], IsStatusEvent e)) :=
  ⟨stop_test_skip_and_success_obs.1 initClient evRunning [evIdle, evStopped]
     (by decide) (by decide),
   stop_test_skip_and_success_obs.2 initClient [evRunning, evIdle, evStopped]
     msgStopOk (by decide)⟩

/-- C9: rejection paths are recoverable and atomic.  A `TEST` reply with
`RESULT=ERROR1` carrying a `MSG` field makes `start_test` return
`(1, msg)` with the session state unchanged, and a `TEST` reply with
`RESULT=ERROR2` carrying a `MSG` field makes `stop_test` return `(2, msg)`
after one receive with the session state unchanged. -/
theorem rejection_paths_state_unchanged :
    (∀ (s : ClientState) (ev : Option Str) (m : Str),
        dictGet (receive_msg ev) kTYPE = some sTEST →
        dictGet (receive_msg ev) kRESULT = some sERROR1 →
        dictGet (receive_msg ev) kMSG = some m →
        start_test s ev = (.ret 1 m, s)) ∧
    (∀ (s : ClientState) (ev : Option Str) (evs : List (Option Str)) (m : Str),
        dictGet (receive_msg ev) kTYPE = some sTEST →
        dictGet (receive_msg ev) kRESULT = some sERROR2 →
        dictGet (receive_msg ev) kMSG = some m →
        stop_test s (ev :: evs) = (.ret 2 m, s, 1)) := by
  constructor
  · intro s ev m h1 h2 h3
    have hne : receive_msg ev ≠ [] := dictGet_ne_nil h1
    have hnotStarted : ¬ dictGet (receive_msg ev) kRESULT = some sSTARTED := by
      rw [h2]
      intro hc
      exact absurd (Option.some.inj hc) (by decide)
    simp [start_test, if_pos (And.intro hne h1), hnotStarted, h2, h3,
      (by decide : ¬ sERROR1 = sSTARTED)]
  · intro s ev evs m h1 h2 h3
    have hne : receive_msg ev ≠ [] := dictGet_ne_nil h1
    have hnotStopped : ¬ dictGet (receive_msg ev) kRESULT = some sSTOPPED := by
      rw [h2]
      intro hc
      exact absurd (Option.some.inj hc) (by decide)
    simp [stop_test, if_pos (And.intro hne h1), hnotStopped, h2, h3,
      (by decide : ¬ sERROR2 = sSTOPPED)]

/-- C9 witness: the two rejection paths at concrete device replies. -/
theorem rejection_paths_state_unchanged_witness :
    start_test initClient (some "TEST;RESULT=ERROR1;MSG=busy;".toList) =
      (.ret 1 "busy".toList, initClient) ∧
    stop_test initClient [some "TEST;RESULT=ERROR2;MSG=no test;".toList] =
      (.ret 2 "no test".toList, initClient, 1) :=
  ⟨rejection_paths_state_unchanged.1 initClient
     (some "TEST;RESULT=ERROR1;MSG=busy;".toList) "busy".toList
     (by decide) (by decide) (by decide),
   rejection_paths_state_unchanged.2 initClient
     (some "TEST;RESULT=ERROR2;MSG=no test;".toList) [] "no test".toList
     (by decide) (by decide) (by decide)⟩

/-- C5 (the claim is right, the code is wrong): evaluated on an `ID` reply
missing the `SERIAL` field, `discover` raises `KeyError` instead of returning
a failure value, and it leaves the session half-initialized — `device_model`
already assigned, `device_serial_num` still clear.  The good path and the
non-`ID` path behave as claimed. -/
theorem discover_keyerror_half_init :
    discover initClient (some "ID;MODEL=X;".toList) =
      (.exn eKeySERIAL, ⟨some "X".toList, none, true⟩) ∧
    discover initClient (some "ID;MODEL=X;SERIAL=Y;".toList) =
      (.ok (some ("X".toList, "Y".toList)),
       ⟨some "X".toList, some "Y".toList, true⟩) ∧
    discover initClient none = (.ok none, initClient) ∧
    discover initClient (some "STATUS;STATE=IDLE;".toList) = (.ok none, initClient) :=
  ⟨by decide, by decide, by decide, by decide⟩

/-- C6 (the claim is right, the code is wrong): a `STATUS` reply with a
non-IDLE state but missing sample fields makes `get_status` raise `KeyError`
instead of returning one of the three claimed outcomes; the timeout, idle and
live-sample cases do behave as claimed. -/
theorem get_status_keyerror_on_missing_fields :
    get_status (some "STATUS;STATE=RUNNING;".toList) = .exn eKeyTIME ∧
    get_status (some "STATUS;STATE=IDLE;".toList) = .ok .idleRes ∧
    get_status evRunning = .ok (.testing "0".toList "0".toList "0".toList) ∧
    get_status none = .ok .noneRes := by decide

/-- The driver state after the unresponsive reaction: timer stopped, one
forced stop issued, one not-responding prompt shown, device disconnected. -/
def dUnresp : DriverState :=
  { client := ⟨none, none, false⟩, connected := false, timerActive := false,
    counter := 2, forcedStops := 1, notifies := 1, samples := 0 }

/-- Once the timer is stopped, no further tick fires and the state is
frozen. -/
theorem run_ticks_inactive {d : DriverState} (h : d.timerActive = false)
    (evs : List (Option Str)) (n : Nat) : run_ticks d evs n = (.ok d, evs) := by
  cases n with
  | zero => rfl
  | succ n => simp [run_ticks, h]

/-- C4 counterexample: two consecutive timeouts — not three — already trigger
the unresponsive reaction.  Starting from a fresh worker, after the second
`None` from `get_status` the counter reaches 2, `2 > 1` fires
`stop(force=True)`, and one forced stop plus one not-responding notification
have been issued. -/
theorem worker_two_timeouts_trigger :
    run_ticks initDriver [none, none] 2 = (.ok dUnresp, []) := by decide

/-- C4 amended: the threshold is two consecutive timeouts, not three.  One
timeout only increments the counter and leaves the timer running; a second
consecutive timeout triggers the reaction, issuing exactly one forced
`stop_test` call and exactly one unresponsive notification no matter how many
further ticks elapse (the timer is stopped, so no tick fires again); and any
valid sample resets the consecutive-timeout counter to zero. -/
theorem worker_timeout_policy :
    run_ticks initDriver [none] 1 = (.ok { initDriver with counter := 1 }, []) ∧
    (∀ n : Nat, run_ticks initDriver [none, none] (n + 2) = (.ok dUnresp, [])) ∧
    (∀ (d : DriverState) (evs : List (Option Str)) (t mv ma : Str),
        get_status (evs.headD none) = .ok (.testing t mv ma) →
        worker_execute d evs =
          (.ok { d with counter := 0, samples := d.samples + 1 }, evs.drop 1)) := by
  refine ⟨by decide, ?_, ?_⟩
  · intro n
    have hstep : run_ticks initDriver [none, none] (n + 2) = run_ticks dUnresp [] n := rfl
    rw [hstep]
    exact run_ticks_inactive rfl [] n
  · intro d evs t mv ma h
    rw [List.headD_eq_head?] at h
    simp [worker_execute, h]

/-- C4 witness: a valid running sample arriving after one timeout resets the
counter and forwards the sample. -/
theorem worker_timeout_policy_witness :
    get_status (([evRunning] : List (Option Str)).headD none) =
      .ok (.testing "0".toList "0".toList "0".toList) ∧
    worker_execute { initDriver with counter := 1 } [evRunning] =
      (.ok { { initDriver with counter := 1 } with
               counter := 0,
               samples := { initDriver with counter := 1 }.samples + 1 },
       ([evRunning] : List (Option Str)).drop 1) :=
  ⟨by decide,
   worker_timeout_policy.2.2 { initDriver with counter := 1 } [evRunning]
     "0".toList "0".toList "0".toList (by decide)⟩
